import Mathlib

/-!
Shallow embedding of the simpletor LSP gateway.

Sources embedded here:
* the files helper (`ApplyDelta`, `ReadFile`),
* `LSPManager` (`SendRequest` id allocation, `readMessages` framing and
  dispatch, `shutdown`),
* `MultiLSPManager` (`StartLSP`, `RouteRequest`/`extractLanguageFromParams`,
  `detectLanguageForLSP`),
* the WebSocket session handler (`open_file`, `delta`, `lsp_request`
  branches and `detectLanguage`).

Conventions: Go strings are modelled as `List Char`, one `Char` per byte
(all data the claims exercise is ASCII); Go `int` is modelled as `Int`
(the modelled quantities never approach the 64-bit range, and no wrap-around
behaviour is relied on by the code); fallible Go functions returning
`(T, error)` become `Except (List Char) T` carrying the `Error()` string;
goroutine channels are modelled by the sequence of values successfully sent
into them, plus a closed flag.
-/

namespace Simpletor

/-- Association-table lookup, first match.  Models Go map indexing
(`m[k]` with the comma-ok form); a Go map holds at most one binding per
key, which the `Nodup` hypotheses on key lists mirror. -/
def tblLookup {α β : Type} [DecidableEq α] (k : α) : List (α × β) → Option β
  | [] => none
  | (k', v) :: rest => if k' = k then some v else tblLookup k rest

/-- Go map assignment `m[k] = v`: replace the binding if present, else add. -/
def tblInsert {α β : Type} [DecidableEq α] (k : α) (v : β) :
    List (α × β) → List (α × β)
  | [] => [(k, v)]
  | (k', v') :: rest =>
      if k' = k then (k, v) :: rest else (k', v') :: tblInsert k v rest

/-- Go map deletion `delete(m, k)`. -/
def tblErase {α β : Type} [DecidableEq α] (k : α) : List (α × β) → List (α × β)
  | [] => []
  | (k', v') :: rest =>
      if k' = k then tblErase k rest else (k', v') :: tblErase k rest

/-- The keys of an association table. -/
def tblKeys {α β : Type} (t : List (α × β)) : List α := t.map Prod.fst

/-- How many bindings a table holds for a key. -/
def tblCountKey {α β : Type} [DecidableEq α] (k : α) (t : List (α × β)) : Nat :=
  (t.filter (fun p => decide (p.1 = k))).length

/-- `ApplyDelta` from the files helper: validates the splice range with the
Go guard `fromPos < 0 || toPos > len(content) || fromPos > toPos` and
otherwise returns `content[:fromPos] + insert + content[toPos:]`. -/
def ApplyDelta (content : List Char) (fromPos toPos : Int) (insert : List Char) :
    Except (List Char) (List Char) :=
  if fromPos < 0 ∨ toPos > (content.length : Int) ∨ fromPos > toPos then
    Except.error ("invalid delta positions".toList)
  else
    Except.ok (content.take fromPos.toNat ++ insert ++ content.drop toPos.toNat)

/-! ### RPC engine: `readMessages` dispatch and `SendRequest` id allocation -/

/-- One frame as `readMessages` sees it after `json.Unmarshal`: the raw body
bytes together with the parsed preamble fields `id` and `method` (`method`
is the empty string when the member is absent). -/
structure Frame where
  body : List Char
  id : Option Int
  method : List Char
deriving DecidableEq

/-- State touched by the reader goroutine of one `LSPManager`:
the `responseHandlers` table (request id to sink, where a sink token stands
for one buffered response channel), the deliveries already performed into
sinks, the buffered contents of `notificationChan` with its drop counter,
and whether anything has closed the notification channel. -/
structure ReaderState where
  pending : List (Int × Nat)
  delivered : List (Nat × List Char)
  notifications : List (List Char)
  notifDropped : Nat
  notifClosed : Bool
deriving DecidableEq

/-- Capacity of `notificationChan` (`make(chan json.RawMessage, 100)`). -/
def notifCapacity : Nat := 100

/-- The dispatch step of `readMessages` for one parsed frame: a frame with an
id wakes the matching sink with the entire body and deletes the table entry,
or is dropped without effect when no entry matches; a frame with a method and
no id is posted to the notification channel with a non-blocking select that
drops (and logs) when the buffer is full.  The buffer occupancy is the list
of not-yet-consumed sends. -/
def processFrame (s : ReaderState) (f : Frame) : ReaderState :=
  match f.id with
  | some i =>
      match tblLookup i s.pending with
      | some sink =>
          { s with
            delivered := s.delivered ++ [(sink, f.body)]
            pending := tblErase i s.pending }
      | none => s
  | none =>
      if f.method ≠ [] then
        if s.notifications.length < notifCapacity then
          { s with notifications := s.notifications ++ [f.body] }
        else
          { s with notifDropped := s.notifDropped + 1 }
      else s

/-- What the reader loop can encounter per iteration: a decoded and parsed
frame; a body whose JSON fails to parse (logged and skipped); or an I/O or
framing error from the child's stdout (`ReadString` / `ReadFull`), on which
`readMessages` returns. -/
inductive RdEvent
  | frame (f : Frame)
  | badJson (body : List Char)
  | ioError

/-- The loop of `readMessages`: processes events until the stream ends or an
I/O error occurs.  On error it simply returns: it neither completes the
pending sinks nor closes the notification channel. -/
def runReader (s : ReaderState) : List RdEvent → ReaderState
  | [] => s
  | RdEvent.ioError :: _ => s
  | RdEvent.badJson _ :: rest => runReader s rest
  | RdEvent.frame f :: rest => runReader (processFrame s f) rest

/-- An engine process handle: the `running` flag plus the reader-side state. -/
structure EngineProc where
  running : Bool
  reader : ReaderState

/-- `shutdown` of `LSPManager`: kills and reaps the child process and clears
`running`.  It does not touch `responseHandlers` and never closes
`notificationChan`. -/
def shutdownProc (p : EngineProc) : EngineProc :=
  { running := false, reader := p.reader }

/-- The synchronised front of `SendRequest`: `messageID` and the
`responseHandlers` table of one `LSPManager`. -/
structure EngineState where
  messageID : Int
  responseHandlers : List (Int × Nat)

/-- The allocation prefix of `SendRequest`: under the mutex, increment
`messageID`, use the new value as the request id, and register the response
channel (sink) under that id. -/
def sendRequestAlloc (s : EngineState) (sink : Nat) : Int × EngineState :=
  (s.messageID + 1,
   { messageID := s.messageID + 1
     responseHandlers := tblInsert (s.messageID + 1) sink s.responseHandlers })

/-- The ids produced by a sequence of `SendRequest` calls on one engine
(one list element per call, carrying that call's sink token). -/
def allocRun (s : EngineState) : List Nat → List Int
  | [] => []
  | sink :: rest =>
      (sendRequestAlloc s sink).1 :: allocRun (sendRequestAlloc s sink).2 rest

/-! ### JSON values and URI routing (`MultiLSPManager`) -/

/-- The result of Go `json.Unmarshal` into `interface{}`: null, bool, number,
string, array, or string-keyed object.  (Numbers are modelled as integers;
no claim depends on non-integer numerics.) -/
inductive JVal
  | jnull
  | jbool (b : Bool)
  | jnum (n : Int)
  | jstr (s : List Char)
  | jarr (elems : List JVal)
  | jobj (fields : List (List Char × JVal))

/-- The routing errors of `MultiLSPManager` (`fmt.Errorf` values). -/
inductive RouteErr
  | badParamsNotMap
  | badParamsNoTextDoc
  | badParamsNoUri
  | unknownLanguage (path : List Char)
  | noEngine (language : List Char)
deriving DecidableEq

/-- The `err.Error()` strings of the routing errors. -/
def routeErrMsg : RouteErr → List Char
  | RouteErr.badParamsNotMap => "params is not a map".toList
  | RouteErr.badParamsNoTextDoc => "textDocument not found in params".toList
  | RouteErr.badParamsNoUri => "uri not found in textDocument".toList
  | RouteErr.unknownLanguage p =>
      ("could not detect language for file: ".toList) ++ p
  | RouteErr.noEngine l =>
      ("no LSP server configured for language: ".toList) ++ l

/-- Go `strings.HasSuffix s suf`. -/
def goHasSuffix (s suf : List Char) : Bool := List.isSuffixOf suf s

/-- Go `strings.HasPrefix s pre`. -/
def goHasPre (s pre : List Char) : Bool := List.isPrefixOf pre s

/-- Go `strings.TrimPrefix s pre`: drop `pre` when it is a prefix of `s`,
otherwise return `s` unchanged. -/
def goTrimPre (s pre : List Char) : List Char :=
  if goHasPre s pre then s.drop pre.length else s

/-- `detectLanguageForLSP` of `MultiLSPManager`: suffix-based detection,
returning the empty string when no suffix matches. -/
def detectLanguageForLSP (path : List Char) : List Char :=
  if goHasSuffix path (".py".toList) then "python".toList
  else if goHasSuffix path (".cpp".toList) || goHasSuffix path (".cc".toList)
      || goHasSuffix path (".cxx".toList) || goHasSuffix path (".c".toList)
      || goHasSuffix path (".h".toList) || goHasSuffix path (".hpp".toList) then
    "cpp".toList
  else []

/-- The language-detection policy as the specification words it: suffix
`.py` maps to `python`; suffixes `.c .cc .cpp .cxx .h .hpp` map to `cpp`;
otherwise no tag.  Stated from the spec, to be compared with
`detectLanguageForLSP`. -/
def specLanguagePolicy (path : List Char) : Option (List Char) :=
  if goHasSuffix path (".py".toList) then some ("python".toList)
  else if goHasSuffix path (".c".toList) || goHasSuffix path (".cc".toList)
      || goHasSuffix path (".cpp".toList) || goHasSuffix path (".cxx".toList)
      || goHasSuffix path (".h".toList) || goHasSuffix path (".hpp".toList) then
    some ("cpp".toList)
  else none

/-- Go type assertion `v.(map[string]interface{})`. -/
def asObj : JVal → Option (List (List Char × JVal))
  | JVal.jobj fields => some fields
  | _ => none

/-- Go type assertion `v.(string)`. -/
def asStr : JVal → Option (List Char)
  | JVal.jstr s => some s
  | _ => none

/-- `extractLanguageFromParams` of `MultiLSPManager`: take
`params.textDocument.uri`, strip the `file://` scheme, and detect the
language of the remaining path. -/
def extractLanguageFromParams (params : JVal) : Except RouteErr (List Char) :=
  match asObj params with
  | none => Except.error RouteErr.badParamsNotMap
  | some paramsMap =>
    match (tblLookup ("textDocument".toList) paramsMap).bind asObj with
    | none => Except.error RouteErr.badParamsNoTextDoc
    | some textDoc =>
      match (tblLookup ("uri".toList) textDoc).bind asStr with
      | none => Except.error RouteErr.badParamsNoUri
      | some uri =>
        let filePath := goTrimPre uri ("file://".toList)
        let language := detectLanguageForLSP filePath
        if language = [] then Except.error (RouteErr.unknownLanguage filePath)
        else Except.ok language

/-- `MultiLSPManager.SendRequest` dispatch selection: look up the engine
registered for the language; `E` abstracts an engine (for the gateway claims
an engine is instantiated as the function from the request params to the raw
response frame the child eventually returns). -/
def multiSendRequest {E : Type} (servers : List (List Char × E))
    (language : List Char) : Except RouteErr E :=
  match tblLookup language servers with
  | some eng => Except.ok eng
  | none => Except.error (RouteErr.noEngine language)

/-- `RouteRequest` of `MultiLSPManager`: detect the language from the params
and dispatch to that language's engine.  `RouteNotification` performs the
same extraction and the same registry lookup and is modelled by this same
selection function. -/
def RouteRequest {E : Type} (servers : List (List Char × E)) (params : JVal) :
    Except RouteErr E :=
  match extractLanguageFromParams params with
  | Except.error e => Except.error e
  | Except.ok language => multiSendRequest servers language

/-! ### Registry `StartLSP` -/

/-- Registry state: the `lspServers` table (language tag to the pid of that
engine's child process) and the set of pids that have been killed. -/
structure RegState where
  lspServers : List (List Char × Nat)
  killed : List Nat

/-- `StartLSP` of `MultiLSPManager`, with the child process identified by a
pid: an existing entry for the language is shut down first (its child
killed); if spawning the new child succeeds the entry is replaced, otherwise
`StartLSP` returns the error and the table keeps its previous binding. -/
def StartLSP (s : RegState) (language : List Char) (spawnOk : Bool)
    (child : Nat) : RegState × Bool :=
  let s1 : RegState :=
    match tblLookup language s.lspServers with
    | some pid => { lspServers := s.lspServers, killed := pid :: s.killed }
    | none => s
  if spawnOk then
    ({ lspServers := tblInsert language child s1.lspServers,
       killed := s1.killed }, true)
  else
    (s1, false)

/-! ### WebSocket session handler -/

/-- Per-session mutable state of `HandleWebSocket`. -/
structure SessionState where
  currentFile : List Char
  currentContent : List Char
deriving DecidableEq

/-- A fresh WebSocket session: `currentFile` and `currentContent` start as
empty strings — the Idle state, before any file has been opened. -/
def idleSession : SessionState := { currentFile := [], currentContent := [] }

/-- Messages the gateway writes back to the client (the envelope types the
claims are about). -/
inductive ClientReply
  | errorReply (message : List Char)
  | fileOpened (path content : List Char)
  | lspResponse (id : Int) (jsonrpc : List Char) (result : JVal)

/-- The routed `textDocument/didChange` attempt made by the `delta` branch. -/
structure DidChangeNote where
  uri : List Char
  text : List Char
deriving DecidableEq

/-- The `delta` branch of `HandleWebSocket`: apply the splice to
`currentContent`; on failure send an error message and leave the session
unchanged; on success store the new content and attempt to route a
whole-document `textDocument/didChange` with `uri = "file://" + currentFile`
(routing failures are only logged).  The middle component is the error
message sent to the client, if any. -/
def handleDelta (sess : SessionState) (fromPos toPos : Int)
    (insert : List Char) :
    SessionState × Option (List Char) × Option DidChangeNote :=
  match ApplyDelta sess.currentContent fromPos toPos insert with
  | Except.error msg =>
      (sess, some (("Failed to apply delta: ".toList) ++ msg), none)
  | Except.ok newContent =>
      ({ currentFile := sess.currentFile, currentContent := newContent },
       none,
       some { uri := ("file://".toList) ++ sess.currentFile,
              text := newContent })

/-- The params object the `delta` branch passes to `RouteNotification`. -/
def didChangeParams (note : DidChangeNote) : JVal :=
  JVal.jobj
    [(("textDocument".toList),
      JVal.jobj [(("uri".toList), JVal.jstr note.uri),
                 (("version".toList), JVal.jnum 1)]),
     (("contentChanges".toList),
      JVal.jarr [JVal.jobj [(("text".toList), JVal.jstr note.text)]])]

/-- `lspResponse["result"]` after unmarshalling a response frame into a Go
map: the `result` member when the frame is an object that has one, and Go
`nil` (JSON null) otherwise. -/
def resultField (frame : JVal) : JVal :=
  match frame with
  | JVal.jobj fields => (tblLookup ("result".toList) fields).getD JVal.jnull
  | _ => JVal.jnull

/-- The reply logic of the `lsp_request` branch, given the outcome of
`RouteRequest` with the selected engine already applied (`SendRequest`
returns the whole raw response frame — error member included — with a nil Go
error): a routing error becomes a gateway `error` message; a returned frame
becomes `lsp_response` carrying the client's original id and only the
frame's `result` field. -/
def handleLspRequest (clientId : Int) (routed : Except RouteErr JVal) :
    ClientReply :=
  match routed with
  | Except.error e =>
      ClientReply.errorReply (("LSP request failed: ".toList) ++ routeErrMsg e)
  | Except.ok frame =>
      ClientReply.lspResponse clientId ("2.0".toList) (resultField frame)

/-- The whole `lsp_request` branch: route by the URI in the params, ask the
selected engine (a function from params to the child's response frame), and
reply. -/
def lspRequestStep (servers : List (List Char × (JVal → JVal)))
    (clientId : Int) (params : JVal) : ClientReply :=
  handleLspRequest clientId
    (Except.map (fun eng => eng params) (RouteRequest servers params))

/-- `detectLanguage` of the session handler.  Go slices
`ext := path[len(path)-3:]`, which panics whenever `len(path) < 3` (negative
slice index); `none` is that out-of-bounds branch. -/
def detectLanguage (path : List Char) : Option (List Char) :=
  if 3 ≤ path.length then
    let ext := path.drop (path.length - 3)
    some
      (if ext = ".py".toList then "python".toList
       else if ext = ".cpp".toList ∨ ext = ".cc".toList ∨ ext = ".cxx".toList
         then "cpp".toList
       else if ext = ".c".toList then "c".toList
       else if ext = ".h".toList ∨ ext = ".hpp".toList then "cpp".toList
       else "plaintext".toList)
  else none

/-- `ReadFile` of the files helper: `fs` abstracts the filesystem as seen
through the cleaned path (`filepath.Clean` itself is not modelled — no claim
depends on path normalisation, and short relative names such as `"a"` are
fixed points of Clean); a missing file yields the
`"file does not exist"` error. -/
def ReadFile (fs : List Char → Option (List Char)) (path : List Char) :
    Except (List Char) (List Char) :=
  match fs path with
  | some content => Except.ok content
  | none => Except.error ("file does not exist".toList)

/-- The routed `textDocument/didOpen` attempt made by the `open_file`
branch.  `languageId = none` marks the out-of-bounds slice in
`detectLanguage` (a Go runtime panic). -/
structure DidOpenNote where
  uri : List Char
  languageId : Option (List Char)
  version : Int
  text : List Char
deriving DecidableEq

/-- The `open_file` branch of `HandleWebSocket`: read the file, set the
session state, reply `file_opened`, and attempt a routed
`textDocument/didOpen` whose `languageId` comes from `detectLanguage` —
reached whenever `ReadFile` succeeds, regardless of the path's length. -/
def handleOpenFile (fs : List Char → Option (List Char)) (sess : SessionState)
    (path : List Char) : SessionState × ClientReply × Option DidOpenNote :=
  match ReadFile fs path with
  | Except.error msg =>
      (sess, ClientReply.errorReply (("Failed to read file: ".toList) ++ msg),
       none)
  | Except.ok content =>
      ({ currentFile := path, currentContent := content },
       ClientReply.fileOpened path content,
       some { uri := ("file://".toList) ++ path,
              languageId := detectLanguage path,
              version := 1, text := content })

/-! ### Frame decoding in `readMessages` (header loop and body read) -/

/-- bufio `ReadString '\n'`: the bytes up to and including the first newline
together with the remaining stream; `none` when the stream ends first (Go
returns the partial read together with an error, and `readMessages` returns
on any error, discarding the partial line). -/
def readLine : List Char → Option (List Char × List Char)
  | [] => none
  | c :: rest =>
      if c = '\n' then some ([c], rest)
      else
        match readLine rest with
        | some (line, rest') => some (c :: line, rest')
        | none => none

/-- Value of a run of decimal digits. -/
def digitsToInt (ds : List Char) : Int :=
  ds.foldl (fun acc c => acc * 10 + ((c.toNat : Int) - 48)) 0

/-- The `%d` verb of `fmt` scanning: discard leading spaces, then an
optionally signed decimal integer (at least one digit); trailing input is
ignored by `Sscanf`.  `none` when no integer can be parsed (Sscanf reports
an error and does not write through the pointer). -/
def scanInt (s : List Char) : Option Int :=
  let s1 := s.dropWhile (fun c => c == ' ' || c == '\t')
  match s1 with
  | '-' :: rest =>
      let ds := rest.takeWhile Char.isDigit
      if ds = [] then none else some (-(digitsToInt ds))
  | '+' :: rest =>
      let ds := rest.takeWhile Char.isDigit
      if ds = [] then none else some (digitsToInt ds)
  | _ =>
      let ds := s1.takeWhile Char.isDigit
      if ds = [] then none else some (digitsToInt ds)

/-- `fmt.Sscanf(line, "Content-Length: %d", &contentLength)` as used in
`readMessages`: succeeds (n = 1, err = nil) iff the line starts with the
literal header name and an integer follows. -/
def scanContentLength (line : List Char) : Option Int :=
  if goHasPre line ("Content-Length:".toList) then
    scanInt (line.drop ("Content-Length:".toList).length)
  else none

/-- A line as it sits on the wire: its final byte is the newline that
delimits it, and no earlier byte is a newline. -/
def isWireLine : List Char → Bool
  | [] => false
  | [c] => c == '\n'
  | c :: rest => c != '\n' && isWireLine rest

/-- Fuelled form of the header loop of `readMessages`: read lines until the
blank `CRLF` line, remembering the last successfully scanned Content-Length
value (the Go variable starts at 0 and lines that do not scan leave it
unchanged); `none` when the stream ends mid-header (the reader then returns
silently).  The fuel only bounds recursion; `readLine` consumes at least one
byte per line, so `length + 1` fuel never runs out. -/
def readHeadersFuel : Nat → Int → List Char → Option (Int × List Char)
  | 0, _, _ => none
  | fuel + 1, contentLength, s =>
      match readLine s with
      | none => none
      | some (line, rest) =>
          if line = "\r\n".toList then some (contentLength, rest)
          else
            match scanContentLength line with
            | some n => readHeadersFuel fuel n rest
            | none => readHeadersFuel fuel contentLength rest

/-- The header loop of `readMessages`, starting from the zero value of
`var contentLength int`. -/
def readHeaders (contentLength : Int) (s : List Char) :
    Option (Int × List Char) :=
  readHeadersFuel (s.length + 1) contentLength s

/-- Outcome of one framing iteration of `readMessages`. -/
inductive DecodeOut
  | frame (contentLength : Nat) (body : List Char) (rest : List Char)
  | readerExit
  | panicked
deriving DecidableEq

/-- One framing iteration of `readMessages`: run the header loop with
`contentLength` starting at 0, then `make([]byte, contentLength)` — a Go
runtime panic when the scanned length is negative — and `io.ReadFull`,
the reader returning on a short body.  No maximum length is enforced, and a
header block with no Content-Length proceeds with length 0. -/
def decodeFrame (s : List Char) : DecodeOut :=
  match readHeaders 0 s with
  | none => DecodeOut.readerExit
  | some (cl, rest) =>
      if cl < 0 then DecodeOut.panicked
      else if rest.length < cl.toNat then DecodeOut.readerExit
      else DecodeOut.frame cl.toNat (rest.take cl.toNat) (rest.drop cl.toNat)

/-- Sample child response frame carrying a JSON-RPC `error` member and no
`result`. -/
def sampleErrFrame : JVal :=
  JVal.jobj [(("id".toList), JVal.jnum 7),
             (("error".toList),
              JVal.jobj [(("code".toList), JVal.jnum (-32601)),
                         (("message".toList),
                          JVal.jstr ("method not found".toList))])]

/-- Sample `lsp_request` params referring to a Python document. -/
def samplePyParams : JVal :=
  JVal.jobj [(("textDocument".toList),
              JVal.jobj [(("uri".toList),
                          JVal.jstr ("file:///x/y.py".toList))])]

/-- Sample reader state with one pending request (id 1, sink 5). -/
def rsSample : ReaderState :=
  { pending := [(1, 5)], delivered := [], notifications := [],
    notifDropped := 0, notifClosed := false }

/-- Sample response frame for request id 1. -/
def frSample : Frame := { body := "B".toList, id := some 1, method := [] }

/-! ## Helper lemmas on association tables -/

theorem tblKeys_cons {α β : Type} (p : α × β) (t : List (α × β)) :
    tblKeys (p :: t) = p.1 :: tblKeys t := rfl

theorem tblLookup_none_of_not_mem {α β : Type} [DecidableEq α] (k : α)
    (t : List (α × β)) (h : k ∉ tblKeys t) : tblLookup k t = none := by
  induction t with
  | nil => rfl
  | cons p rest ih =>
    obtain ⟨k', v'⟩ := p
    rw [tblKeys_cons] at h
    rw [tblLookup]
    rw [if_neg (by simp at h; exact fun hk => h.1 hk.symm)]
    exact ih (by simp at h; simpa using h.2)

theorem tblErase_of_not_mem {α β : Type} [DecidableEq α] (k : α)
    (t : List (α × β)) (h : k ∉ tblKeys t) : tblErase k t = t := by
  induction t with
  | nil => rfl
  | cons p rest ih =>
    obtain ⟨k', v'⟩ := p
    rw [tblKeys_cons] at h
    simp only [List.mem_cons, not_or] at h
    rw [tblErase, if_neg (fun hk => h.1 hk.symm), ih h.2]

theorem tblLookup_erase_self {α β : Type} [DecidableEq α] (k : α)
    (t : List (α × β)) : tblLookup k (tblErase k t) = none := by
  induction t with
  | nil => rfl
  | cons p rest ih =>
    obtain ⟨k', v'⟩ := p
    by_cases hk : k' = k
    · rw [tblErase, if_pos hk]; exact ih
    · rw [tblErase, if_neg hk, tblLookup, if_neg hk]; exact ih

theorem tblLookup_erase_ne {α β : Type} [DecidableEq α] (k j : α)
    (t : List (α × β)) (hne : j ≠ k) :
    tblLookup j (tblErase k t) = tblLookup j t := by
  induction t with
  | nil => rfl
  | cons p rest ih =>
    obtain ⟨k', v'⟩ := p
    by_cases hk : k' = k
    · subst hk
      rw [tblErase, if_pos rfl, tblLookup, if_neg (fun h => hne h.symm)]
      exact ih
    · rw [tblErase, if_neg hk, tblLookup, tblLookup]
      by_cases hj : k' = j
      · rw [if_pos hj, if_pos hj]
      · rw [if_neg hj, if_neg hj]; exact ih

theorem tblErase_length {α β : Type} [DecidableEq α] (k : α) (v : β)
    (t : List (α × β)) (hnd : (tblKeys t).Nodup)
    (h : tblLookup k t = some v) : (tblErase k t).length + 1 = t.length := by
  induction t with
  | nil => simp [tblLookup] at h
  | cons p rest ih =>
    obtain ⟨k', v'⟩ := p
    rw [tblKeys_cons, List.nodup_cons] at hnd
    by_cases hk : k' = k
    · subst hk
      rw [tblErase, if_pos rfl, tblErase_of_not_mem k' rest hnd.1]
      simp
    · rw [tblLookup, if_neg hk] at h
      rw [tblErase, if_neg hk]
      simp only [List.length_cons]
      rw [ih hnd.2 h]

theorem tblLookup_insert_self {α β : Type} [DecidableEq α] (k : α) (v : β)
    (t : List (α × β)) : tblLookup k (tblInsert k v t) = some v := by
  induction t with
  | nil => simp [tblInsert, tblLookup]
  | cons p rest ih =>
    obtain ⟨k', v'⟩ := p
    by_cases hk : k' = k
    · rw [tblInsert, if_pos hk, tblLookup, if_pos rfl]
    · rw [tblInsert, if_neg hk, tblLookup, if_neg hk]; exact ih

theorem tblKeys_insert_nodup {α β : Type} [DecidableEq α] (k : α) (v : β)
    (t : List (α × β)) (hnd : (tblKeys t).Nodup) :
    (tblKeys (tblInsert k v t)).Nodup := by
  induction t with
  | nil => simp [tblInsert, tblKeys]
  | cons p rest ih =>
    obtain ⟨k', v'⟩ := p
    rw [tblKeys_cons, List.nodup_cons] at hnd
    by_cases hk : k' = k
    · subst hk
      rw [tblInsert, if_pos rfl, tblKeys_cons, List.nodup_cons]
      exact ⟨hnd.1, hnd.2⟩
    · rw [tblInsert, if_neg hk, tblKeys_cons, List.nodup_cons]
      refine ⟨?_, ih hnd.2⟩
      intro hmem
      have : ∀ j, j ∈ tblKeys (tblInsert k v rest) → j = k ∨ j ∈ tblKeys rest := by
        intro j hj
        clear hmem ih hnd
        induction rest with
        | nil => simp [tblInsert, tblKeys] at hj; exact Or.inl hj
        | cons q rq ihq =>
          obtain ⟨kq, vq⟩ := q
          by_cases hq : kq = k
          · subst hq
            rw [tblInsert, if_pos rfl, tblKeys_cons] at hj
            rcases List.mem_cons.mp hj with h1 | h1
            · exact Or.inl h1
            · exact Or.inr (by rw [tblKeys_cons]; exact List.mem_cons_of_mem _ h1)
          · rw [tblInsert, if_neg hq, tblKeys_cons] at hj
            rcases List.mem_cons.mp hj with h1 | h1
            · exact Or.inr (by rw [tblKeys_cons]; exact List.mem_cons.mpr (Or.inl h1))
            · rcases ihq h1 with h2 | h2
              · exact Or.inl h2
              · exact Or.inr (by rw [tblKeys_cons]; exact List.mem_cons_of_mem _ h2)
      rcases this k' hmem with h1 | h1
      · exact hk h1
      · exact hnd.1 h1

theorem tblFilter_eq_nil {α β : Type} [DecidableEq α] (k : α)
    (t : List (α × β)) (h : k ∉ tblKeys t) :
    t.filter (fun p => decide (p.1 = k)) = [] := by
  induction t with
  | nil => rfl
  | cons p rest ih =>
    obtain ⟨k', v'⟩ := p
    rw [tblKeys_cons] at h
    simp only [List.mem_cons, not_or] at h
    have hf : (decide ((k', v').1 = k)) = false := by
      simp only [decide_eq_false_iff_not]
      exact fun hh => h.1 hh.symm
    simp only [List.filter_cons, hf, Bool.false_eq_true, if_false]
    exact ih h.2

theorem tblCountKey_insert {α β : Type} [DecidableEq α] (k : α) (v : β)
    (t : List (α × β)) (hnd : (tblKeys t).Nodup) :
    tblCountKey k (tblInsert k v t) = 1 := by
  induction t with
  | nil => simp [tblInsert, tblCountKey]
  | cons p rest ih =>
    obtain ⟨k', v'⟩ := p
    rw [tblKeys_cons, List.nodup_cons] at hnd
    by_cases hk : k' = k
    · subst hk
      rw [tblInsert, if_pos rfl]
      unfold tblCountKey
      have ht : (decide ((k', v).1 = k')) = true := by simp
      simp only [List.filter_cons, ht, if_true]
      rw [tblFilter_eq_nil k' rest hnd.1]
      rfl
    · rw [tblInsert, if_neg hk]
      unfold tblCountKey at ih ⊢
      have hf : (decide ((k', v').1 = k)) = false := by
        simp only [decide_eq_false_iff_not]
        exact hk
      simp only [List.filter_cons, hf, Bool.false_eq_true, if_false]
      exact ih hnd.2

/-! ## C1: the splice contract of ApplyDelta -/

/-- C1: for every content, positions and insert with
`0 ≤ fromPos ≤ toPos ≤ len(content)` (byte offsets), `ApplyDelta` returns
`content[:fromPos] + insert + content[toPos:]`; for every input violating
that precondition it returns the invalid-range error and no result. -/
theorem C1_applyDelta_splice (content insert : List Char) (fromPos toPos : Int) :
    (0 ≤ fromPos → fromPos ≤ toPos → toPos ≤ (content.length : Int) →
      ApplyDelta content fromPos toPos insert =
        Except.ok (content.take fromPos.toNat ++ insert ++
                   content.drop toPos.toNat)) ∧
    (¬ (0 ≤ fromPos ∧ fromPos ≤ toPos ∧ toPos ≤ (content.length : Int)) →
      ApplyDelta content fromPos toPos insert =
        Except.error ("invalid delta positions".toList)) := by
  constructor
  · intro h1 h2 h3
    unfold ApplyDelta
    rw [if_neg (by omega)]
  · intro h
    unfold ApplyDelta
    rw [if_pos (by omega)]

/-- Witness for C1: a valid splice on `"abcdef"` and an invalid range. -/
theorem C1_witness :
    ApplyDelta ("abcdef".toList) 2 4 ("XY".toList) =
      Except.ok ("abXYef".toList) ∧
    ApplyDelta ("abcdef".toList) 5 3 [] =
      Except.error ("invalid delta positions".toList) := by
  constructor
  · have h := (C1_applyDelta_splice ("abcdef".toList) ("XY".toList) 2 4).1
      (by decide) (by decide) (by decide)
    rw [h]
    rfl
  · exact (C1_applyDelta_splice ("abcdef".toList) [] 5 3).2 (by decide)

/-! ## C2: reader failure leaves requests pending, channel open -/

theorem processFrame_notifClosed (s : ReaderState) (f : Frame) :
    (processFrame s f).notifClosed = s.notifClosed := by
  unfold processFrame
  split
  · split <;> rfl
  · split
    · split <;> rfl
    · rfl

/-- C2 (code bug): when the reader stops because of a framing/stdout error,
`readMessages` merely returns: with an outstanding request (id 1) in the
table, the pending entry stays and nothing is delivered to its sink — so the
blocked `SendRequest` never completes, with a `PeerClosed` error or
otherwise — and no execution of the reader ever closes the notification
channel; engine shutdown likewise leaves the reader-side state untouched. -/
theorem C2_reader_failure_no_peerclosed :
    (runReader { pending := [(1, 0)], delivered := [], notifications := [],
                 notifDropped := 0, notifClosed := false } [RdEvent.ioError] =
      { pending := [(1, 0)], delivered := [], notifications := [],
        notifDropped := 0, notifClosed := false }) ∧
    (∀ (s : ReaderState) (events : List RdEvent),
        (runReader s events).notifClosed = s.notifClosed) ∧
    (∀ p : EngineProc, (shutdownProc p).reader = p.reader) := by
  refine ⟨rfl, ?_, fun p => rfl⟩
  intro s events
  induction events generalizing s with
  | nil => rfl
  | cons e rest ih =>
    cases e with
    | frame f =>
      rw [runReader]
      rw [ih (processFrame s f)]
      exact processFrame_notifClosed s f
    | badJson b => rw [runReader]; exact ih s
    | ioError => rfl

/-! ## C3: response dispatch wakes exactly one sink, stale ids are dropped -/

/-- C3: for a frame whose id matches a live pending entry, exactly one sink
is woken with the entire body and exactly that entry is removed (the table
shrinks by one, the id no longer resolves, every other id is untouched, the
notification channel is unaffected); for a frame whose id matches no entry,
the state is unchanged entirely. -/
theorem C3_response_dispatch (s : ReaderState) (f : Frame) (i : Int)
    (hid : f.id = some i) (hnd : (tblKeys s.pending).Nodup) :
    (∀ sink, tblLookup i s.pending = some sink →
        (processFrame s f).delivered = s.delivered ++ [(sink, f.body)] ∧
        (processFrame s f).pending.length + 1 = s.pending.length ∧
        tblLookup i (processFrame s f).pending = none ∧
        (∀ j, j ≠ i →
            tblLookup j (processFrame s f).pending = tblLookup j s.pending) ∧
        (processFrame s f).notifications = s.notifications ∧
        (processFrame s f).notifDropped = s.notifDropped ∧
        (processFrame s f).notifClosed = s.notifClosed) ∧
    (tblLookup i s.pending = none → processFrame s f = s) := by
  constructor
  · intro sink hlk
    have hpf : processFrame s f =
        { s with delivered := s.delivered ++ [(sink, f.body)]
                 pending := tblErase i s.pending } := by
      unfold processFrame
      simp only [hid, hlk]
    rw [hpf]
    refine ⟨rfl, ?_, ?_, ?_, rfl, rfl, rfl⟩
    · exact tblErase_length i sink s.pending hnd hlk
    · exact tblLookup_erase_self i s.pending
    · intro j hj
      exact tblLookup_erase_ne i j s.pending hj
  · intro hlk
    unfold processFrame
    simp only [hid, hlk]

/-- Witness for C3 at a table holding id 1 with sink 5. -/
theorem C3_witness :
    (processFrame rsSample frSample).delivered = [] ++ [(5, ("B".toList))] ∧
    (processFrame rsSample frSample).pending.length + 1 = 1 := by
  have h := (C3_response_dispatch rsSample frSample 1 rfl (by decide)).1 5
    (by decide)
  exact ⟨h.1, h.2.1⟩

/-! ## C4: strictly increasing, never reused request ids -/

theorem allocRun_mem_gt (sinks : List Nat) :
    ∀ (s : EngineState), ∀ i ∈ allocRun s sinks, s.messageID < i := by
  induction sinks with
  | nil => intro s i hi; simp [allocRun] at hi
  | cons x xs ih =>
    intro s i hi
    rw [allocRun] at hi
    rcases List.mem_cons.mp hi with h1 | h1
    · rw [h1]; simp [sendRequestAlloc]
    · have := ih (sendRequestAlloc s x).2 i h1
      simp only [sendRequestAlloc] at this
      omega

theorem allocRun_pairwise (sinks : List Nat) (s : EngineState) :
    List.Pairwise (· < ·) (allocRun s sinks) := by
  induction sinks generalizing s with
  | nil => exact List.Pairwise.nil
  | cons x xs ih =>
    rw [allocRun]
    refine List.Pairwise.cons ?_ (ih _)
    intro j hj
    have := allocRun_mem_gt xs (sendRequestAlloc s x).2 j hj
    simp only [sendRequestAlloc] at this ⊢
    omega

/-- C4: on one engine, every `SendRequest` allocates an id strictly greater
than all ids allocated before it, and no id is ever reused during the
engine's lifetime — each id is also strictly greater than the engine's
starting counter. -/
theorem C4_monotonic_ids (s : EngineState) (sinks : List Nat) :
    List.Pairwise (· < ·) (allocRun s sinks) ∧ (allocRun s sinks).Nodup ∧
    (∀ i ∈ allocRun s sinks, s.messageID < i) := by
  refine ⟨allocRun_pairwise sinks s, ?_, allocRun_mem_gt sinks s⟩
  exact (allocRun_pairwise sinks s).imp (fun h => ne_of_lt h)

/-! ## C5: the frame decoder and malformed headers -/

theorem readLine_some_length {s line rest : List Char}
    (h : readLine s = some (line, rest)) : rest.length < s.length := by
  induction s generalizing line rest with
  | nil => simp [readLine] at h
  | cons c cs ih =>
    rw [readLine] at h
    by_cases hc : c = '\n'
    · rw [if_pos hc] at h
      cases h
      simp
    · rw [if_neg hc] at h
      cases hr : readLine cs with
      | none => rw [hr] at h; cases h
      | some p =>
        obtain ⟨l', r'⟩ := p
        rw [hr] at h
        cases h
        have := ih hr
        simp only [List.length_cons]
        omega

theorem isWireLine_ne_nil {l : List Char} (h : isWireLine l = true) :
    l ≠ [] := by
  intro he
  subst he
  simp [isWireLine] at h

theorem readLine_wire (l s : List Char) (hl : isWireLine l = true) :
    readLine (l ++ s) = some (l, s) := by
  induction l with
  | nil => simp [isWireLine] at hl
  | cons c cs ih =>
    cases cs with
    | nil =>
      have hc : c = '\n' := by simpa [isWireLine] using hl
      subst hc
      rw [List.cons_append, List.nil_append, readLine, if_pos rfl]
    | cons c2 cs2 =>
      have hstep : isWireLine (c :: c2 :: cs2) =
          (c != '\n' && isWireLine (c2 :: cs2)) := rfl
      rw [hstep] at hl
      simp only [Bool.and_eq_true, bne_iff_ne, ne_eq] at hl
      rw [List.cons_append, readLine, if_neg hl.1, ih hl.2]

theorem readHeadersFuel_congr (f1 : Nat) :
    ∀ (f2 : Nat) (cl : Int) (s : List Char), s.length < f1 → s.length < f2 →
      readHeadersFuel f1 cl s = readHeadersFuel f2 cl s := by
  induction f1 with
  | zero => intro f2 cl s h1 _; omega
  | succ a ih =>
    intro f2 cl s h1 h2
    cases f2 with
    | zero => omega
    | succ b =>
      rw [readHeadersFuel, readHeadersFuel]
      cases hr : readLine s with
      | none => rfl
      | some p =>
        obtain ⟨line, rest⟩ := p
        have hlt := readLine_some_length hr
        simp only [hr]
        by_cases hb : line = "\r\n".toList
        · rw [if_pos hb, if_pos hb]
        · rw [if_neg hb, if_neg hb]
          cases hs : scanContentLength line with
          | some n => exact ih b n rest (by omega) (by omega)
          | none => exact ih b cl rest (by omega) (by omega)

theorem readHeaders_skip (line s : List Char) (cl : Int)
    (hw : isWireLine line = true) (hnb : line ≠ "\r\n".toList)
    (hscan : scanContentLength line = none) :
    readHeaders cl (line ++ s) = readHeaders cl s := by
  unfold readHeaders
  rw [readHeadersFuel]
  simp only [readLine_wire line s hw]
  rw [if_neg hnb]
  simp only [hscan]
  have h1 : s.length < (line ++ s).length := by
    have hne := isWireLine_ne_nil hw
    rw [List.length_append]
    cases line with
    | nil => exact absurd rfl hne
    | cons a b => simp only [List.length_cons]; omega
  exact readHeadersFuel_congr _ _ _ _ h1 (Nat.lt_succ_self _)

theorem readHeaders_blank (cl : Int) (s : List Char) :
    readHeaders cl (("\r\n".toList) ++ s) = some (cl, s) := by
  unfold readHeaders
  rw [readHeadersFuel]
  simp only [readLine_wire ("\r\n".toList) s (by decide)]
  simp

/-- C5 counterexample: a header block with no Content-Length line does not
fail — the decoder accepts it with length 0, reads a zero-byte body, and
continues with the stream mid-frame; a declared negative length does not
fail either — it panics allocating the body buffer. -/
theorem C5_counterexample :
    decodeFrame ("X: 1\r\n\r\nAB".toList) =
      DecodeOut.frame 0 [] ("AB".toList) ∧
    decodeFrame ("Content-Length: -1\r\n\r\nQ".toList) =
      DecodeOut.panicked := by
  constructor <;> decide

/-- C5 amended: the frame decoder never reports a MalformedHeader error.
A header block of lines none of which scans as Content-Length is accepted
with the length defaulting to 0 (a zero-byte body is then read and looping
continues); end-of-stream mid-header makes the reader return silently
rather than fail; and a negative declared length leads to the runtime panic
of allocating the body buffer, not to an error.  No maximum length exists
anywhere in the decoder. -/
theorem C5_amended_decoder (lines : List (List Char)) (s : List Char)
    (h : ∀ l ∈ lines, isWireLine l = true ∧ l ≠ "\r\n".toList ∧
          scanContentLength l = none) :
    (readHeaders 0 (lines.flatten ++ ("\r\n".toList) ++ s) = some (0, s)) ∧
    (decodeFrame (lines.flatten ++ ("\r\n".toList) ++ s) =
       DecodeOut.frame 0 [] s) ∧
    (∀ t : List Char, readHeaders 0 t = none →
        decodeFrame t = DecodeOut.readerExit) ∧
    (∀ (t rest : List Char) (cl : Int), readHeaders 0 t = some (cl, rest) →
        cl < 0 → decodeFrame t = DecodeOut.panicked) := by
  have hmain : ∀ (ls : List (List Char)) (cl : Int),
      (∀ l ∈ ls, isWireLine l = true ∧ l ≠ "\r\n".toList ∧
        scanContentLength l = none) →
      readHeaders cl (ls.flatten ++ ("\r\n".toList) ++ s) = some (cl, s) := by
    intro ls
    induction ls with
    | nil =>
      intro cl _
      simpa using readHeaders_blank cl s
    | cons l rest ih =>
      intro cl hall
      have hl := hall l (List.mem_cons_self l rest)
      have hrest := fun x hx => hall x (List.mem_cons_of_mem l hx)
      rw [List.flatten_cons]
      rw [List.append_assoc l rest.flatten, List.append_assoc l]
      rw [readHeaders_skip l _ cl hl.1 hl.2.1 hl.2.2]
      exact ih cl hrest
  refine ⟨hmain lines 0 h, ?_, ?_, ?_⟩
  · simp only [decodeFrame, hmain lines 0 h]
    norm_num
  · intro t ht
    simp only [decodeFrame, ht]
  · intro t rest cl ht hcl
    simp only [decodeFrame, ht]
    rw [if_pos hcl]

/-- Witness for the amended C5 at a one-line header block with no
Content-Length. -/
theorem C5_amended_witness :
    readHeaders 0 ((["X: 1\r\n".toList].flatten) ++ ("\r\n".toList) ++
        ("AB".toList)) = some (0, ("AB".toList)) :=
  (C5_amended_decoder ["X: 1\r\n".toList] ("AB".toList) (by decide)).1

/-! ## C6: URI-based routing to the language's engine -/

theorem specPolicy_some_ne_nil (path lang : List Char)
    (h : specLanguagePolicy path = some lang) : lang ≠ [] := by
  unfold specLanguagePolicy at h
  split at h
  · cases h; decide
  · split at h
    · cases h; decide
    · cases h

theorem detect_eq_specPolicy (path : List Char) :
    detectLanguageForLSP path = (specLanguagePolicy path).getD [] := by
  unfold detectLanguageForLSP specLanguagePolicy
  cases h1 : goHasSuffix path (".py".toList) <;>
    cases h2 : goHasSuffix path (".cpp".toList) <;>
    cases h3 : goHasSuffix path (".cc".toList) <;>
    cases h4 : goHasSuffix path (".cxx".toList) <;>
    cases h5 : goHasSuffix path (".c".toList) <;>
    cases h6 : goHasSuffix path (".h".toList) <;>
    cases h7 : goHasSuffix path (".hpp".toList) <;>
    simp [h1, h2, h3, h4, h5, h6, h7]

/-- C6: `RouteRequest` (and the identically-selecting `RouteNotification`)
extracts `params.textDocument.uri`, strips `file://`, detects the language by
the spec's suffix policy (with which the code's `detectLanguageForLSP` agrees
everywhere), and dispatches to exactly the engine registered for that tag;
it fails UnknownLanguage when the policy yields no tag, NoEngine when no
engine is registered for the tag, and one of the bad-params errors when the
URI cannot be located in the params. -/
theorem C6_route_by_uri {E : Type} (servers : List (List Char × E))
    (params : JVal) :
    (∀ pFields tdFields uri, params = JVal.jobj pFields →
        tblLookup ("textDocument".toList) pFields = some (JVal.jobj tdFields) →
        tblLookup ("uri".toList) tdFields = some (JVal.jstr uri) →
        ((specLanguagePolicy (goTrimPre uri ("file://".toList)) = none →
            RouteRequest servers params =
              Except.error (RouteErr.unknownLanguage
                (goTrimPre uri ("file://".toList)))) ∧
         (∀ lang, specLanguagePolicy (goTrimPre uri ("file://".toList)) =
              some lang →
            tblLookup lang servers = none →
            RouteRequest servers params =
              Except.error (RouteErr.noEngine lang)) ∧
         (∀ lang eng, specLanguagePolicy (goTrimPre uri ("file://".toList)) =
              some lang →
            tblLookup lang servers = some eng →
            RouteRequest servers params = Except.ok eng))) ∧
    (asObj params = none →
        RouteRequest servers params = Except.error RouteErr.badParamsNotMap) ∧
    (∀ pFields, params = JVal.jobj pFields →
        (tblLookup ("textDocument".toList) pFields).bind asObj = none →
        RouteRequest servers params =
          Except.error RouteErr.badParamsNoTextDoc) ∧
    (∀ pFields tdFields, params = JVal.jobj pFields →
        tblLookup ("textDocument".toList) pFields = some (JVal.jobj tdFields) →
        (tblLookup ("uri".toList) tdFields).bind asStr = none →
        RouteRequest servers params = Except.error RouteErr.badParamsNoUri) ∧
    (∀ path : List Char,
        detectLanguageForLSP path = (specLanguagePolicy path).getD []) := by
  refine ⟨?_, ?_, ?_, ?_, detect_eq_specPolicy⟩
  · intro pFields tdFields uri hp htd huri
    subst hp
    have h0 : asObj (JVal.jobj pFields) = some pFields := rfl
    have h1 : asObj (JVal.jobj tdFields) = some tdFields := rfl
    have h2 : asStr (JVal.jstr uri) = some uri := rfl
    have hfp : extractLanguageFromParams (JVal.jobj pFields) =
        (if detectLanguageForLSP (goTrimPre uri ("file://".toList)) = []
         then Except.error (RouteErr.unknownLanguage
                (goTrimPre uri ("file://".toList)))
         else Except.ok
                (detectLanguageForLSP (goTrimPre uri ("file://".toList)))) := by
      unfold extractLanguageFromParams
      simp only [h0, htd, Option.some_bind, h1, huri, h2]
    refine ⟨?_, ?_, ?_⟩
    · intro hspec
      have hd : detectLanguageForLSP (goTrimPre uri ("file://".toList)) = [] := by
        rw [detect_eq_specPolicy, hspec]
        rfl
      simp only [RouteRequest, hfp]
      rw [if_pos hd]
    · intro lang hspec hlook
      have hne := specPolicy_some_ne_nil _ lang hspec
      have hd : detectLanguageForLSP (goTrimPre uri ("file://".toList)) = lang := by
        rw [detect_eq_specPolicy, hspec]
        rfl
      simp only [RouteRequest, hfp]
      rw [if_neg (by rw [hd]; exact hne)]
      simp only [multiSendRequest, hd, hlook]
    · intro lang eng hspec hlook
      have hne := specPolicy_some_ne_nil _ lang hspec
      have hd : detectLanguageForLSP (goTrimPre uri ("file://".toList)) = lang := by
        rw [detect_eq_specPolicy, hspec]
        rfl
      simp only [RouteRequest, hfp]
      rw [if_neg (by rw [hd]; exact hne)]
      simp only [multiSendRequest, hd, hlook]
  · intro h
    unfold RouteRequest extractLanguageFromParams
    simp only [h]
  · intro pFields hp hbind
    subst hp
    have h0 : asObj (JVal.jobj pFields) = some pFields := rfl
    unfold RouteRequest extractLanguageFromParams
    simp only [h0, hbind]
  · intro pFields tdFields hp htd hbind
    subst hp
    have h0 : asObj (JVal.jobj pFields) = some pFields := rfl
    have h1 : asObj (JVal.jobj tdFields) = some tdFields := rfl
    unfold RouteRequest extractLanguageFromParams
    simp only [h0, htd, Option.some_bind, h1, hbind]

/-- Witness for C6: with engines for python and cpp, a request whose params
point at `file:///x/y.py` is dispatched to the python engine. -/
theorem C6_witness :
    RouteRequest [(("python".toList), (0 : Nat)), (("cpp".toList), 1)]
      samplePyParams = Except.ok 0 := by
  have h := (C6_route_by_uri
      [(("python".toList), (0 : Nat)), (("cpp".toList), 1)] samplePyParams).1
    [(("textDocument".toList),
      JVal.jobj [(("uri".toList), JVal.jstr ("file:///x/y.py".toList))])]
    [(("uri".toList), JVal.jstr ("file:///x/y.py".toList))]
    ("file:///x/y.py".toList) rfl rfl rfl
  exact h.2.2 ("python".toList) 0 (by decide) (by decide)

/-! ## C7: one engine per language; a second start kills the first child -/

theorem StartLSP_ok_map (s : RegState) (L : List Char) (c : Nat) :
    (StartLSP s L true c).1.lspServers = tblInsert L c s.lspServers := by
  unfold StartLSP
  cases h : tblLookup L s.lspServers <;> simp [h]

theorem StartLSP_map_not_ok (s : RegState) (L : List Char) (c : Nat) :
    (StartLSP s L false c).1.lspServers = s.lspServers := by
  unfold StartLSP
  cases h : tblLookup L s.lspServers <;> simp [h]

theorem StartLSP_kills (s : RegState) (L : List Char) (ok : Bool) (c pid : Nat)
    (h : tblLookup L s.lspServers = some pid) :
    pid ∈ (StartLSP s L ok c).1.killed := by
  unfold StartLSP
  cases ok <;> simp [h]

/-- C7: after a successful `StartLSP` for language L followed by a second
`StartLSP` for L (of either outcome), exactly one registry entry for L
exists, the first child has been killed, and — when the second spawn
succeeds — the entry now holds the second child; the key set stays
duplicate-free (one engine per tag at any instant). -/
theorem C7_registry_replace (s0 : RegState) (L : List Char) (c1 c2 : Nat)
    (ok2 : Bool) (hnd : (tblKeys s0.lspServers).Nodup) :
    (tblCountKey L (StartLSP (StartLSP s0 L true c1).1 L ok2 c2).1.lspServers
        = 1) ∧
    (c1 ∈ (StartLSP (StartLSP s0 L true c1).1 L ok2 c2).1.killed) ∧
    (ok2 = true →
        tblLookup L (StartLSP (StartLSP s0 L true c1).1 L ok2 c2).1.lspServers =
          some c2) ∧
    ((tblKeys (StartLSP (StartLSP s0 L true c1).1 L ok2 c2).1.lspServers).Nodup)
    := by
  have h1map := StartLSP_ok_map s0 L c1
  have h1nd : (tblKeys (StartLSP s0 L true c1).1.lspServers).Nodup := by
    rw [h1map]
    exact tblKeys_insert_nodup L c1 s0.lspServers hnd
  have h1lk : tblLookup L (StartLSP s0 L true c1).1.lspServers = some c1 := by
    rw [h1map]
    exact tblLookup_insert_self L c1 s0.lspServers
  cases ok2 with
  | false =>
    refine ⟨?_, StartLSP_kills _ L false c2 c1 h1lk, ?_, ?_⟩
    · rw [StartLSP_map_not_ok, h1map]
      exact tblCountKey_insert L c1 s0.lspServers hnd
    · intro h
      cases h
    · rw [StartLSP_map_not_ok]
      exact h1nd
  | true =>
    refine ⟨?_, StartLSP_kills _ L true c2 c1 h1lk, ?_, ?_⟩
    · rw [StartLSP_ok_map]
      exact tblCountKey_insert L c2 _ h1nd
    · intro _
      rw [StartLSP_ok_map]
      exact tblLookup_insert_self L c2 _
    · rw [StartLSP_ok_map]
      exact tblKeys_insert_nodup L c2 _ h1nd

/-- Witness for C7: starting cpp twice from an empty registry. -/
theorem C7_witness :
    tblCountKey ("cpp".toList) (StartLSP (StartLSP
        { lspServers := [], killed := [] }
        ("cpp".toList) true 7).1 ("cpp".toList) true 8).1.lspServers = 1 ∧
    7 ∈ (StartLSP (StartLSP { lspServers := [], killed := [] }
        ("cpp".toList) true 7).1 ("cpp".toList) true 8).1.killed := by
  have h := C7_registry_replace { lspServers := [], killed := [] }
    ("cpp".toList) 7 8 true (by decide)
  exact ⟨h.1, h.2.1⟩

/-! ## C8: a delta with no open file -/

/-- C8 counterexample: in the Idle state (no file opened, empty mirror), the
delta `{fromPos:0, toPos:0, insert:"x"}` is not answered with an error and
it does mutate: `currentContent` becomes `"x"` and a `didChange` route is
attempted with the bare `file://` URI. -/
theorem C8_counterexample :
    (handleDelta idleSession 0 0 ("x".toList)).1 =
      { currentFile := [], currentContent := ("x".toList) } ∧
    (handleDelta idleSession 0 0 ("x".toList)).2.1 = none := by
  constructor <;> decide

/-- C8 amended: in Idle, a delta is answered with an error and leaves the
session unmutated exactly when its range is invalid for the empty content
(`fromPos < 0`, `toPos > 0` or `fromPos > toPos`); the remaining Idle deltas
(`fromPos = toPos = 0`) are applied — `currentContent` becomes the insert
text, no error is sent — and the attempted `didChange` route carries the
bare `file://` URI, which fails language detection (UnknownLanguage on the
empty path), so no engine receives it. -/
theorem C8_amended_idle_delta (fromPos toPos : Int) (insert : List Char) :
    ((fromPos < 0 ∨ toPos > 0 ∨ fromPos > toPos) →
        handleDelta idleSession fromPos toPos insert =
          (idleSession,
           some (("Failed to apply delta: ".toList) ++
                 ("invalid delta positions".toList)),
           none)) ∧
    (fromPos = 0 → toPos = 0 →
        handleDelta idleSession fromPos toPos insert =
          ({ currentFile := [], currentContent := insert }, none,
           some { uri := ("file://".toList), text := insert }) ∧
        extractLanguageFromParams
            (didChangeParams { uri := ("file://".toList), text := insert }) =
          Except.error (RouteErr.unknownLanguage [])) := by
  constructor
  · intro h
    have hguard : ApplyDelta idleSession.currentContent fromPos toPos insert =
        Except.error ("invalid delta positions".toList) := by
      unfold ApplyDelta
      rw [if_pos (by simp only [idleSession, List.length_nil]; omega)]
    unfold handleDelta
    simp only [hguard]
  · intro h1 h2
    subst h1
    subst h2
    constructor
    · have hok : ApplyDelta idleSession.currentContent 0 0 insert =
          Except.ok insert := by
        unfold ApplyDelta
        rw [if_neg (by simp only [idleSession, List.length_nil]; omega)]
        simp [idleSession]
      unfold handleDelta
      simp only [hok]
      simp [idleSession]
    · rfl

/-- Witness for the amended C8: the two Idle branches at
`delta(5,3,"")` and `delta(0,0,"x")`. -/
theorem C8_amended_witness :
    handleDelta idleSession 5 3 [] =
      (idleSession,
       some (("Failed to apply delta: ".toList) ++
             ("invalid delta positions".toList)),
       none) ∧
    handleDelta idleSession 0 0 ("x".toList) =
      ({ currentFile := [], currentContent := ("x".toList) }, none,
       some { uri := ("file://".toList), text := ("x".toList) }) := by
  constructor
  · exact (C8_amended_idle_delta 5 3 []).1 (by omega)
  · exact ((C8_amended_idle_delta 0 0 ("x".toList)).2 rfl rfl).1

/-! ## C9: lsp_response construction from the child frame -/

/-- C9 counterexample: with a python engine whose child answers the routed
request with a frame carrying a JSON-RPC `error` member (and no `result`),
the gateway still replies with an `lsp_response` envelope whose `result` is
null — not with a gateway `error` message. -/
theorem C9_counterexample :
    lspRequestStep [(("python".toList), fun _ => sampleErrFrame)] 42
      samplePyParams =
      ClientReply.lspResponse 42 ("2.0".toList) JVal.jnull := rfl

/-- C9 amended: when routing fails, the gateway replies with an `error`
message; when routing succeeds, the reply is always
`lsp_response{id: client id, jsonrpc:"2.0", result: frame.result}` — the
frame's `result` member when present, JSON null otherwise — and never a
gateway `error` message, so a child frame carrying an `error` member is
answered by an `lsp_response` with null `result` rather than by an error. -/
theorem C9_amended_lsp_response (clientId : Int)
    (routed : Except RouteErr JVal) :
    (∀ fields, routed = Except.ok (JVal.jobj fields) →
        handleLspRequest clientId routed =
          ClientReply.lspResponse clientId ("2.0".toList)
            ((tblLookup ("result".toList) fields).getD JVal.jnull)) ∧
    (∀ e, routed = Except.error e →
        handleLspRequest clientId routed =
          ClientReply.errorReply
            (("LSP request failed: ".toList) ++ routeErrMsg e)) ∧
    (∀ v, routed = Except.ok v →
        ∀ m, handleLspRequest clientId routed ≠ ClientReply.errorReply m) := by
  refine ⟨?_, ?_, ?_⟩
  · intro fields h
    subst h
    rfl
  · intro e h
    subst h
    rfl
  · intro v h m
    subst h
    intro hc
    cases hc

/-- Witness for the amended C9 at the sample error frame. -/
theorem C9_amended_witness :
    handleLspRequest 42 (Except.ok sampleErrFrame) =
      ClientReply.lspResponse 42 ("2.0".toList) JVal.jnull := by
  have h := (C9_amended_lsp_response 42 (Except.ok sampleErrFrame)).1
    [(("id".toList), JVal.jnum 7),
     (("error".toList),
      JVal.jobj [(("code".toList), JVal.jnum (-32601)),
                 (("message".toList),
                  JVal.jstr ("method not found".toList))])] rfl
  exact h.trans rfl

/-! ## C10: the 3-byte suffix slice in the session's detectLanguage -/

/-- C10: `detectLanguage` slices the last 3 bytes of the path, which is in
bounds for every path of at least 3 bytes; but the out-of-bounds branch
(`none`, a Go slice panic) is reachable from the public `open_file`
interface: any existing file whose path is shorter than 3 bytes reaches it
after a successful read. -/
theorem C10_detect_slice_bound :
    (∀ path : List Char, 3 ≤ path.length →
        (detectLanguage path).isSome = true) ∧
    (∃ (fs : List Char → Option (List Char)) (path content : List Char),
        path.length < 3 ∧
        ReadFile fs path = Except.ok content ∧
        (handleOpenFile fs idleSession path).2.2 =
          some { uri := ("file://".toList) ++ path, languageId := none,
                 version := 1, text := content }) := by
  constructor
  · intro path h
    unfold detectLanguage
    rw [if_pos h]
    rfl
  · refine ⟨fun p => if p = ("a".toList) then some ("hi".toList) else none,
      ("a".toList), ("hi".toList), by decide, rfl, rfl⟩

/-- Witness for C10 at the 4-byte path `"x.py"`. -/
theorem C10_witness :
    (3 ≤ ("x.py".toList).length) ∧
    (detectLanguage ("x.py".toList)).isSome = true :=
  ⟨by decide, C10_detect_slice_bound.1 ("x.py".toList) (by decide)⟩

end Simpletor
